import Mathlib

/-!
Verification of the squad-statistics core of the Football Squad Builder API
(src/main.py, src/schemas.py).  The component of interest is the pure
function `compute_squad_stats`, which takes an ordered list of optional
player records, discards the absent ones, and returns the player count, the
average rating rounded to one decimal, a chemistry total, and (when at least
one player is placed) the constant `max_chemistry = 33`.
-/

namespace SquadBuilder

/-- A player catalog record, after the `Player` schema of src/schemas.py:
`nation`, `league`, `club` are required strings, `rating` a required integer.
Only the fields read by `compute_squad_stats` (plus the name) are modelled;
the six sub-attributes, position and image are never read by the core. -/
structure Player where
  name : String
  nation : String
  league : String
  club : String
  rating : ℤ
deriving DecidableEq, Repr

/-- One slot assignment of a squad, after `SquadPlayer` in src/schemas.py. -/
structure SquadPlayer where
  slot : ℕ
  player_id : String
deriving DecidableEq, Repr

/-- The dictionary returned by `compute_squad_stats`.  The Python function
returns a dict that lacks the `max_chemistry` key when no players are
placed; this absence is modelled by `max_chemistry = none`. -/
structure SquadStats where
  players : ℕ
  avg_rating : ℚ
  chemistry : ℕ
  max_chemistry : Option ℕ
deriving DecidableEq, Repr

/-- Round a rational to the nearest integer, ties to the even integer.  This
is the rounding Python's builtin `round` applies. -/
def roundHalfEven (q : ℚ) : ℤ :=
  if Int.fract q < 1/2 then ⌊q⌋
  else if 1/2 < Int.fract q then ⌊q⌋ + 1
  else if ⌊q⌋ % 2 = 0 then ⌊q⌋ else ⌊q⌋ + 1

/-- Python's `round(x, 1)`: scale by ten, round half to even, scale back. -/
def round1 (q : ℚ) : ℚ := (roundHalfEven (q * 10) : ℚ) / 10

/-- Link count from src/main.py lines 213-215: the number of entries of
`placed` at a position other than `i` (the Python `t is not p` test; the
callers always build a fresh dict per slot, so object identity coincides
with position) whose attribute `f` equals that of `p`. -/
def links (placed : List Player) (i : ℕ) (p : Player) (f : Player → String) : ℕ :=
  placed.enum.countP (fun jt => decide (jt.1 ≠ i) && decide (f jt.2 = f p))

/-- Score assembly from src/main.py lines 216-223: start at 0, add 2 when
there is at least one club link, add 1 under the literal disjunction
`league_links >= 2 or league_links >= 1`, add 1 when there is at least one
nation link, then cap at 3. -/
def scoreFromLinks (club_links league_links nation_links : ℕ) : ℕ :=
  min ((if 1 ≤ club_links then 2 else 0)
      + (if 2 ≤ league_links ∨ 1 ≤ league_links then 1 else 0)
      + (if 1 ≤ nation_links then 1 else 0)) 3

/-- Individual chemistry score of the player `p` sitting at position `i` of
`placed`, as computed by the loop body of src/main.py lines 212-223. -/
def playerScoreAt (placed : List Player) (i : ℕ) (p : Player) : ℕ :=
  scoreFromLinks (links placed i p Player.club)
    (links placed i p Player.league) (links placed i p Player.nation)

/-- Total chemistry accumulated by the loop of src/main.py lines 211-224. -/
def totalChem (placed : List Player) : ℕ :=
  (placed.enum.map (fun ip => playerScoreAt placed ip.1 ip.2)).sum

/-- Shallow embedding of `compute_squad_stats` (src/main.py lines 203-227). -/
def compute_squad_stats (player_docs : List (Option Player)) : SquadStats :=
  let placed := player_docs.filterMap id
  if placed.isEmpty then
    { players := 0, avg_rating := 0, chemistry := 0, max_chemistry := none }
  else
    { players := placed.length
      avg_rating := round1 ((placed.map (fun p => (p.rating : ℚ))).sum / placed.length)
      chemistry := totalChem placed
      max_chemistry := some 33 }

/-- Division made fallible, as in Python where `x / 0` raises
`ZeroDivisionError` instead of returning a value. -/
def qdivChecked (a b : ℚ) : Except String ℚ :=
  if b = 0 then .error "ZeroDivisionError" else .ok (a / b)

/-- Variant of `compute_squad_stats` in which the one latent failure point of
the Python body, the division by `len(placed)`, is made explicit; every
other operation in the body (filtering, dict reads with defaults, counting,
comparison, addition, `min`) is total. -/
def compute_squad_statsChecked (player_docs : List (Option Player)) :
    Except String SquadStats :=
  let placed := player_docs.filterMap id
  if placed.isEmpty then
    .ok { players := 0, avg_rating := 0, chemistry := 0, max_chemistry := none }
  else do
    let mean ← qdivChecked ((placed.map (fun p => (p.rating : ℚ))).sum) placed.length
    .ok { players := placed.length
          avg_rating := round1 mean
          chemistry := totalChem placed
          max_chemistry := some 33 }

/-- Lineup-size guard of `create_squad` (src/main.py lines 262-263): a
non-empty player list longer than 11 is rejected with HTTP 400 before
anything is stored. -/
def create_squad_check (players : List SquadPlayer) : Except String Unit :=
  if players ≠ [] ∧ 11 < players.length then
    .error "Max 11 players in starting XI"
  else .ok ()

/-- Count of placed players other than (one occurrence of) `p` whose
attribute `f` agrees with that of `p`; meaningful when `p` is a member of
`placed`, where the count of matching entries is at least 1 for `p` itself. -/
def otherLinks (placed : List Player) (p : Player) (f : Player → String) : ℕ :=
  (placed.countP (fun t => decide (f t = f p))) - 1

/-- Individual chemistry score as the specification states it: starting from
0, add 2 if at least one other placed player shares the club, add 1 if at
least one other shares the league, add 1 if at least one other shares the
nation, then cap at 3. -/
def specIndivScore (placed : List Player) (p : Player) : ℕ :=
  min ((if 1 ≤ otherLinks placed p Player.club then 2 else 0)
      + (if 1 ≤ otherLinks placed p Player.league then 1 else 0)
      + (if 1 ≤ otherLinks placed p Player.nation then 1 else 0)) 3

/-- Individual score rephrased through `scoreFromLinks` with the multiset
link counts; bridges the positional code to the spec-side score. -/
def multiScore (placed : List Player) (p : Player) : ℕ :=
  scoreFromLinks (otherLinks placed p Player.club)
    (otherLinks placed p Player.league) (otherLinks placed p Player.nation)

/-! Sample players, taken from the seed data of src/main.py lines 126-187. -/

/-- Seed record with rating 92 (Paris SG, Ligue 1, France). -/
def mbappe : Player :=
  { name := "Kylian Mbappé", nation := "France", league := "Ligue 1"
    club := "Paris SG", rating := 92 }

/-- Seed record with rating 92 (Manchester City, Premier League, Norway). -/
def haaland : Player :=
  { name := "Erling Haaland", nation := "Norway", league := "Premier League"
    club := "Manchester City", rating := 92 }

/-- Seed record with rating 91 (Manchester City, Premier League, Belgium). -/
def debruyne : Player :=
  { name := "Kevin De Bruyne", nation := "Belgium", league := "Premier League"
    club := "Manchester City", rating := 91 }

/-- Scenario player P1 of the specification: club A, league X, nation N1. -/
def scenP1 : Player :=
  { name := "P1", nation := "N1", league := "X", club := "A", rating := 90 }

/-- Scenario player P2 of the specification: club A, league Y, nation N2. -/
def scenP2 : Player :=
  { name := "P2", nation := "N2", league := "Y", club := "A", rating := 90 }

/-- Scenario player P3 of the specification: club B, league X, nation N1. -/
def scenP3 : Player :=
  { name := "P3", nation := "N1", league := "X", club := "B", rating := 90 }

/-- Eleven players with pairwise different clubs, leagues and nations. -/
def elevenDistinct : List Player :=
  (List.range 11).map (fun i =>
    { name := "D" ++ toString i, nation := "N" ++ toString i
      league := "L" ++ toString i, club := "C" ++ toString i, rating := 80 })

/-- Twelve identical squad-slot entries, an oversized lineup. -/
def twelveSlots : List SquadPlayer :=
  (List.range 12).map (fun i => { slot := i, player_id := "pid" })

/-! Rounding lemmas. -/

/-- Rounding fixes integers. -/
lemma roundHalfEven_intCast (n : ℤ) : roundHalfEven (n : ℚ) = n := by
  unfold roundHalfEven
  rw [Int.fract_intCast, Int.floor_intCast]
  norm_num

/-- Rounding to one decimal fixes integers. -/
lemma round1_intCast (n : ℤ) : round1 (n : ℚ) = n := by
  unfold round1
  have h : ((n : ℚ)) * 10 = ((n * 10 : ℤ) : ℚ) := by push_cast; ring
  rw [h, roundHalfEven_intCast]
  push_cast
  field_simp

/-- Evaluation lemma: when the scaled value sits strictly between an integer
and the next half-point boundary from above, rounding goes up. -/
lemma round1_eq_of_floor_of_half_lt (q : ℚ) (n : ℤ) (hn : ⌊q * 10⌋ = n)
    (hf : 1/2 < Int.fract (q * 10)) : round1 q = (n + 1 : ℤ) / 10 := by
  unfold round1 roundHalfEven
  rw [hn]
  have hlt : ¬ Int.fract (q * 10) < 1/2 := by linarith
  simp only [hlt, if_false, hf, if_true]

/-! Bridge between the positional link counts of the loop and the multiset
link counts. -/

/-- Count over an enumeration, position constraint vacuous: when every index
in `enumFrom n l` exceeds `i`, the constraint `jt.1 ≠ i` always holds. -/
lemma countP_enumFrom_of_lt {α : Type} (Q : α → Bool) :
    ∀ (l : List α) (n i : ℕ), i < n →
      (l.enumFrom n).countP (fun jt => decide (jt.1 ≠ i) && Q jt.2)
        = l.countP Q := by
  intro l
  induction l with
  | nil => intro n i _; rfl
  | cons a l ih =>
    intro n i h
    rw [List.enumFrom_cons, List.countP_cons, List.countP_cons, ih (n + 1) i (by omega)]
    have hne : (n ≠ i) := by omega
    simp [hne]

/-- Count over an enumeration, one position excluded: excluding the position
`n + k` holding the element `p` removes exactly one matching entry. -/
lemma countP_enumFrom_exclude {α : Type} (Q : α → Bool) :
    ∀ (l : List α) (n k : ℕ) (p : α), l[k]? = some p → Q p = true →
      (l.enumFrom n).countP (fun jt => decide (jt.1 ≠ n + k) && Q jt.2)
        = l.countP Q - 1 := by
  intro l
  induction l with
  | nil => intro n k p hk _; simp at hk
  | cons a l ih =>
    intro n k p hk hq
    rw [List.enumFrom_cons, List.countP_cons, List.countP_cons]
    cases k with
    | zero =>
      rw [List.getElem?_cons_zero, Option.some_inj] at hk
      subst hk
      have hhead : (decide (n ≠ n + 0) && Q a) = false := by simp
      rw [hhead, countP_enumFrom_of_lt Q l (n + 1) (n + 0) (by omega), hq]
      simp
    | succ k =>
      rw [List.getElem?_cons_succ] at hk
      have hmem : p ∈ l := by
        rcases List.getElem?_eq_some.mp hk with ⟨hlt, hget⟩
        exact hget ▸ List.getElem_mem hlt
      have hpos : 0 < l.countP Q := List.countP_pos_iff.mpr ⟨p, hmem, hq⟩
      have hidx : n + (k + 1) = (n + 1) + k := by omega
      rw [hidx, ih (n + 1) k p hk hq]
      have hhead : (decide (n ≠ (n + 1) + k) && Q a) = Q a := by
        have : n ≠ (n + 1) + k := by omega
        simp [this]
      rw [hhead]
      cases hqa : Q a
      all_goals simp
      all_goals omega

/-- The positional link count of the loop equals the multiset link count:
counting entries at other positions that match `p` is counting all matching
entries and discounting `p`'s own position. -/
lemma links_eq_otherLinks (placed : List Player) (i : ℕ) (p : Player)
    (f : Player → String) (h : placed[i]? = some p) :
    links placed i p f = otherLinks placed p f := by
  unfold links otherLinks
  have := countP_enumFrom_exclude (fun t => decide (f t = f p)) placed 0 i p h
    (by simp)
  rw [Nat.zero_add] at this
  exact this

/-- The per-position score of the loop body equals the multiset score. -/
lemma playerScoreAt_eq_multiScore (placed : List Player) (i : ℕ) (p : Player)
    (h : placed[i]? = some p) : playerScoreAt placed i p = multiScore placed p := by
  unfold playerScoreAt multiScore
  rw [links_eq_otherLinks placed i p Player.club h,
    links_eq_otherLinks placed i p Player.league h,
    links_eq_otherLinks placed i p Player.nation h]

/-- The chemistry total of the loop is the sum of the multiset scores of the
placed players. -/
lemma totalChem_eq_sum_multiScore (placed : List Player) :
    totalChem placed = (placed.map (multiScore placed)).sum := by
  unfold totalChem
  have h1 : placed.enum.map (fun ip => playerScoreAt placed ip.1 ip.2)
      = placed.enum.map (fun ip => multiScore placed ip.2) :=
    List.map_congr_left (fun ip hip => playerScoreAt_eq_multiScore placed ip.1 ip.2
      (List.mem_enum_iff_getElem?.mp hip))
  have h2 : placed.enum.map (fun ip => multiScore placed ip.2)
      = (placed.enum.map Prod.snd).map (multiScore placed) := by
    rw [List.map_map]; rfl
  rw [h1, h2, List.enum_map_snd]

/-! Characterization of `compute_squad_stats` in the two branches. -/

/-- Value of `compute_squad_stats` when every entry is filtered away. -/
lemma compute_eq_of_nil (docs : List (Option Player)) (h : docs.filterMap id = []) :
    compute_squad_stats docs =
      { players := 0, avg_rating := 0, chemistry := 0, max_chemistry := none } := by
  unfold compute_squad_stats
  rw [if_pos]
  exact List.isEmpty_iff.mpr h

/-- Value of `compute_squad_stats` when at least one player is placed. -/
lemma compute_eq_of_ne_nil (docs : List (Option Player))
    (h : docs.filterMap id ≠ []) :
    compute_squad_stats docs =
      { players := (docs.filterMap id).length
        avg_rating := round1 (((docs.filterMap id).map
          (fun p => (p.rating : ℚ))).sum / (docs.filterMap id).length)
        chemistry := totalChem (docs.filterMap id)
        max_chemistry := some 33 } := by
  unfold compute_squad_stats
  rw [if_neg]
  simp only [List.isEmpty_iff]
  exact h

/-- Feeding a fully placed lineup through the null filter is the identity. -/
lemma filterMap_id_map_some (S : List Player) : (S.map some).filterMap id = S := by
  simp

/-- The spec-side individual score agrees with the multiset score: the
disjunction `league_links >= 2 or league_links >= 1` of the code collapses
to the single threshold `league_links >= 1` of the spec. -/
lemma specIndivScore_eq_multiScore (placed : List Player) (p : Player) :
    specIndivScore placed p = multiScore placed p := by
  unfold specIndivScore multiScore scoreFromLinks
  have h : (2 ≤ otherLinks placed p Player.league ∨ 1 ≤ otherLinks placed p Player.league)
      ↔ 1 ≤ otherLinks placed p Player.league := by omega
  rw [if_congr h rfl rfl]

/-- Each per-player score is at most 3. -/
lemma playerScoreAt_le_three (placed : List Player) (i : ℕ) (p : Player) :
    playerScoreAt placed i p ≤ 3 :=
  min_le_right _ _

/-- The chemistry total is at most three per placed player. -/
lemma totalChem_le (placed : List Player) : totalChem placed ≤ 3 * placed.length := by
  unfold totalChem
  have h := List.sum_le_card_nsmul
    (placed.enum.map fun ip => playerScoreAt placed ip.1 ip.2) 3 ?_
  · rw [List.length_map, List.enum_length, smul_eq_mul, Nat.mul_comm] at h
    exact h
  · intro x hx
    rcases List.mem_map.mp hx with ⟨ip, _, rfl⟩
    exact playerScoreAt_le_three placed ip.1 ip.2

/-- A single placed player has no teammates, hence zero chemistry. -/
lemma totalChem_singleton (p : Player) : totalChem [p] = 0 := by
  rw [totalChem_eq_sum_multiScore]
  have h : multiScore [p] p = 0 := by
    unfold multiScore otherLinks scoreFromLinks
    rw [List.countP_cons, List.countP_cons, List.countP_cons, List.countP_nil]
    simp
  simp [h]

/-- Under a pairwise-distinct attribute, the only placed player matching `p`
on that attribute is `p` itself. -/
lemma countP_eq_one_of_pairwise (f : Player → String) :
    ∀ (l : List Player), l.Pairwise (fun a b => f a ≠ f b) → ∀ p ∈ l,
      l.countP (fun t => decide (f t = f p)) = 1 := by
  intro l
  induction l with
  | nil => intro _ p hp; simp at hp
  | cons a l ih =>
    intro hpw p hp
    rcases List.pairwise_cons.mp hpw with ⟨ha, hl⟩
    rw [List.countP_cons]
    rcases List.mem_cons.mp hp with rfl | hpl
    · have hz : l.countP (fun t => decide (f t = f p)) = 0 :=
        List.countP_eq_zero.mpr (fun b hb => by
          simp only [decide_eq_true_eq]
          exact fun he => (ha b hb) he.symm)
      rw [hz]
      simp
    · rw [ih hl p hpl]
      have hne : f a ≠ f p := ha p hpl
      simp [hne]

/-- Monotonicity of the score assembly in each link count. -/
lemma scoreFromLinks_mono {c1 c2 l1 l2 n1 n2 : ℕ} (hc : c1 ≤ c2) (hl : l1 ≤ l2)
    (hn : n1 ≤ n2) : scoreFromLinks c1 l1 n1 ≤ scoreFromLinks c2 l2 n2 := by
  unfold scoreFromLinks
  split_ifs <;> omega

/-- Appending one more placed player can only grow a link count. -/
lemma otherLinks_append_le (S : List Player) (q p : Player) (f : Player → String) :
    otherLinks S p f ≤ otherLinks (S ++ [q]) p f := by
  unfold otherLinks
  rw [List.countP_append]
  omega

/-- Appending one more placed player can only grow an individual score. -/
lemma multiScore_append_le (S : List Player) (q p : Player) :
    multiScore S p ≤ multiScore (S ++ [q]) p :=
  scoreFromLinks_mono (otherLinks_append_le S q p Player.club)
    (otherLinks_append_le S q p Player.league)
    (otherLinks_append_le S q p Player.nation)

/-- Appending one more placed player can only grow the chemistry total. -/
lemma totalChem_append_le (S : List Player) (q : Player) :
    totalChem S ≤ totalChem (S ++ [q]) := by
  rw [totalChem_eq_sum_multiScore, totalChem_eq_sum_multiScore,
    List.map_append, List.sum_append]
  have h1 : (S.map (multiScore S)).sum ≤ (S.map (multiScore (S ++ [q]))).sum :=
    List.sum_le_sum (fun p _ => multiScore_append_le S q p)
  exact le_trans h1 (Nat.le_add_right _ _)

/-- Permutations do not change the multiset scores. -/
lemma multiScore_congr_perm {l1 l2 : List Player} (h : l1.Perm l2) :
    multiScore l1 = multiScore l2 := by
  funext p
  unfold multiScore otherLinks
  rw [h.countP_eq, h.countP_eq, h.countP_eq]

/-- Permutations do not change the chemistry total. -/
lemma totalChem_congr_perm {l1 l2 : List Player} (h : l1.Perm l2) :
    totalChem l1 = totalChem l2 := by
  rw [totalChem_eq_sum_multiScore, totalChem_eq_sum_multiScore,
    multiScore_congr_perm h]
  exact (h.map _).sum_eq

/-! Claim theorems. -/

/-- C1: for every non-empty list of placed player records, the chemistry
returned by `compute_squad_stats` is the sum over each placed player of the
individual score prescribed by the specification: add 2 for at least one
club teammate, 1 for at least one league teammate (the effective content of
the code's `league_links >= 2 or league_links >= 1` disjunction), 1 for at
least one nation teammate, capped at 3. -/
theorem chemistry_is_sum_of_spec_scores (S : List Player) (h : S ≠ []) :
    (compute_squad_stats (S.map some)).chemistry = (S.map (specIndivScore S)).sum := by
  have hf := filterMap_id_map_some S
  have hne : (S.map some).filterMap id ≠ [] := by rw [hf]; exact h
  rw [compute_eq_of_ne_nil _ hne]
  dsimp only
  rw [hf, totalChem_eq_sum_multiScore]
  exact congrArg List.sum
    (List.map_congr_left fun p _ => specIndivScore_eq_multiScore S p).symm

/-- Witness for C1 at the three-player scenario of the specification. -/
theorem chemistry_is_sum_of_spec_scores_witness :
    (compute_squad_stats ([scenP1, scenP2, scenP3].map some)).chemistry
      = ([scenP1, scenP2, scenP3].map (specIndivScore [scenP1, scenP2, scenP3])).sum :=
  chemistry_is_sum_of_spec_scores [scenP1, scenP2, scenP3] (List.cons_ne_nil _ _)

/-- C2: for the empty list and for any all-absent input, the result is
`{players: 0, avg_rating: 0, chemistry: 0}` with the `max_chemistry` field
absent. -/
theorem compute_all_absent (docs : List (Option Player)) (h : ∀ x ∈ docs, x = none) :
    compute_squad_stats docs =
      { players := 0, avg_rating := 0, chemistry := 0, max_chemistry := none } :=
  compute_eq_of_nil docs (List.filterMap_eq_nil_iff.mpr (fun a ha => h a ha))

/-- Witness for C2 at the empty input and at eleven nulls. -/
theorem compute_all_absent_witness :
    compute_squad_stats ([] : List (Option Player)) =
      { players := 0, avg_rating := 0, chemistry := 0, max_chemistry := none }
    ∧ compute_squad_stats (List.replicate 11 (none : Option Player)) =
      { players := 0, avg_rating := 0, chemistry := 0, max_chemistry := none } :=
  ⟨compute_all_absent [] (fun x hx => absurd hx (List.not_mem_nil x)),
    compute_all_absent _ (fun x hx => List.eq_of_mem_replicate hx)⟩

/-- C3: the result of `compute_squad_stats` is invariant under any
permutation of the input slots. -/
theorem compute_perm_invariant (d1 d2 : List (Option Player)) (h : d1.Perm d2) :
    compute_squad_stats d1 = compute_squad_stats d2 := by
  have hp : (d1.filterMap id).Perm (d2.filterMap id) := h.filterMap id
  by_cases hn : d1.filterMap id = []
  · have hp2 : (d2.filterMap id).Perm [] := by rw [hn] at hp; exact hp.symm
    rw [compute_eq_of_nil _ hn, compute_eq_of_nil _ hp2.eq_nil]
  · have hn2 : d2.filterMap id ≠ [] := by
      intro h2
      exact hn (List.Perm.eq_nil (by rw [h2] at hp; exact hp))
    rw [compute_eq_of_ne_nil _ hn, compute_eq_of_ne_nil _ hn2]
    have hlen := hp.length_eq
    have hsum : ((d1.filterMap id).map fun p => (p.rating : ℚ)).sum
        = ((d2.filterMap id).map fun p => (p.rating : ℚ)).sum := (hp.map _).sum_eq
    have hchem := totalChem_congr_perm hp
    rw [hlen, hsum, hchem]

/-- Witness for C3 at a concrete transposition of two placed players. -/
theorem compute_perm_invariant_witness :
    compute_squad_stats [some scenP1, some scenP2]
      = compute_squad_stats [some scenP2, some scenP1] :=
  compute_perm_invariant _ _ (List.Perm.swap _ _ _)

/-- C4: for non-empty placed lists the average rating is the arithmetic mean
of the placed ratings rounded to one decimal (Python's default rounding,
modelled by `round1`); for ratings 92, 92, 91 the average is 91.7; a single
placed player gets exactly their own rating and chemistry 0. -/
theorem avg_rating_rounded_mean :
    (∀ docs : List (Option Player), docs.filterMap id ≠ [] →
        (compute_squad_stats docs).avg_rating
          = round1 (((docs.filterMap id).map fun p => (p.rating : ℚ)).sum
              / (docs.filterMap id).length))
    ∧ (compute_squad_stats [some mbappe, some haaland, some debruyne]).avg_rating
        = 917/10
    ∧ ∀ p : Player, (compute_squad_stats [some p]).avg_rating = (p.rating : ℚ)
        ∧ (compute_squad_stats [some p]).chemistry = 0 := by
  refine ⟨?_, ?_, ?_⟩
  · intro docs h
    rw [compute_eq_of_ne_nil _ h]
  · have hne : ([some mbappe, some haaland, some debruyne] :
        List (Option Player)).filterMap id ≠ [] := by simp
    rw [compute_eq_of_ne_nil _ hne]
    dsimp only
    have hred : ([some mbappe, some haaland, some debruyne] :
        List (Option Player)).filterMap id = [mbappe, haaland, debruyne] := rfl
    rw [hred]
    have hsum : (([mbappe, haaland, debruyne]).map fun p => (p.rating : ℚ)).sum = 275 := by
      norm_num [mbappe, haaland, debruyne]
    have hlen : ([mbappe, haaland, debruyne]).length = 3 := rfl
    rw [hsum, hlen]
    have hfl : ⌊(275 : ℚ) / 3 * 10⌋ = 916 := by
      rw [Int.floor_eq_iff]
      norm_num
    have hfr : 1/2 < Int.fract ((275 : ℚ) / 3 * 10) := by
      rw [Int.fract, hfl]
      norm_num
    have h917 := round1_eq_of_floor_of_half_lt ((275 : ℚ) / 3) 916 hfl hfr
    norm_num at h917 ⊢
    rw [h917]
  · intro p
    have hf : ([some p] : List (Option Player)).filterMap id = [p] := by simp
    have hne : ([some p] : List (Option Player)).filterMap id ≠ [] := by
      rw [hf]; exact List.cons_ne_nil _ _
    rw [compute_eq_of_ne_nil _ hne]
    dsimp only
    rw [hf]
    constructor
    · have hsum : (([p]).map fun t => (t.rating : ℚ)).sum = (p.rating : ℚ) := by simp
      rw [hsum]
      norm_num
      exact round1_intCast p.rating
    · exact totalChem_singleton p

/-- Witness for C4 at concrete inputs. -/
theorem avg_rating_rounded_mean_witness :
    (compute_squad_stats [some scenP1]).avg_rating
      = round1 ((((([some scenP1] : List (Option Player)).filterMap id).map
          (fun p => (p.rating : ℚ))).sum)
          / ((([some scenP1] : List (Option Player)).filterMap id).length))
    ∧ (compute_squad_stats [some mbappe, some haaland, some debruyne]).avg_rating
        = 917/10
    ∧ (compute_squad_stats [some scenP1]).avg_rating = (scenP1.rating : ℚ)
    ∧ (compute_squad_stats [some scenP1]).chemistry = 0 :=
  ⟨avg_rating_rounded_mean.1 [some scenP1] (by simp),
    avg_rating_rounded_mean.2.1,
    (avg_rating_rounded_mean.2.2 scenP1).1,
    (avg_rating_rounded_mean.2.2 scenP1).2⟩

/-- C5: with at most eleven placed players the chemistry never exceeds 33. -/
theorem chemistry_le_max (docs : List (Option Player))
    (h : (docs.filterMap id).length ≤ 11) :
    (compute_squad_stats docs).chemistry ≤ 33 := by
  by_cases hn : docs.filterMap id = []
  · rw [compute_eq_of_nil _ hn]
    exact Nat.zero_le 33
  · rw [compute_eq_of_ne_nil _ hn]
    dsimp only
    calc totalChem (docs.filterMap id) ≤ 3 * (docs.filterMap id).length :=
          totalChem_le _
      _ ≤ 3 * 11 := Nat.mul_le_mul_left 3 h
      _ = 33 := rfl

/-- Witness for C5 at a concrete two-player input. -/
theorem chemistry_le_max_witness :
    (compute_squad_stats [some scenP1, some scenP2]).chemistry ≤ 33 :=
  chemistry_le_max [some scenP1, some scenP2] (by simp)

/-- C6 counterexample: `max_chemistry` is not the constant `some 33` on every
input; on the empty input the field is absent. -/
theorem max_chemistry_not_always_present :
    ¬ ∀ docs : List (Option Player),
        (compute_squad_stats docs).max_chemistry = some 33 := by
  intro h
  have h0 := h []
  rw [compute_eq_of_nil [] rfl] at h0
  exact Option.noConfusion h0

/-- C6 amended: `max_chemistry` is the constant 33 whenever at least one
player is placed, and the field is absent when no player is placed. -/
theorem max_chemistry_constant_when_placed (docs : List (Option Player)) :
    (docs.filterMap id ≠ [] → (compute_squad_stats docs).max_chemistry = some 33)
    ∧ (docs.filterMap id = [] → (compute_squad_stats docs).max_chemistry = none) := by
  constructor
  · intro h
    rw [compute_eq_of_ne_nil _ h]
  · intro h
    rw [compute_eq_of_nil _ h]

/-- Witness for the amended C6 at concrete inputs. -/
theorem max_chemistry_constant_when_placed_witness :
    (compute_squad_stats [some scenP1]).max_chemistry = some 33
    ∧ (compute_squad_stats ([] : List (Option Player))).max_chemistry = none :=
  ⟨(max_chemistry_constant_when_placed [some scenP1]).1 (by simp),
    (max_chemistry_constant_when_placed []).2 rfl⟩

/-- C7: the three-player scenario P1(A,X,N1), P2(A,Y,N2), P3(B,X,N1) yields
chemistry 7, and eleven placed players with pairwise different clubs,
leagues and nations yield chemistry 0. -/
theorem scenario_chemistry_values :
    (compute_squad_stats [some scenP1, some scenP2, some scenP3]).chemistry = 7
    ∧ ∀ placed : List Player, placed.length = 11 →
        placed.Pairwise (fun a b => a.club ≠ b.club) →
        placed.Pairwise (fun a b => a.league ≠ b.league) →
        placed.Pairwise (fun a b => a.nation ≠ b.nation) →
        (compute_squad_stats (placed.map some)).chemistry = 0 := by
  constructor
  · decide
  · intro placed hlen hc hl hn
    have hf := filterMap_id_map_some placed
    have hne : (placed.map some).filterMap id ≠ [] := by
      rw [hf]
      intro h0
      rw [h0] at hlen
      simp at hlen
    rw [compute_eq_of_ne_nil _ hne]
    dsimp only
    rw [hf, totalChem_eq_sum_multiScore]
    apply List.sum_eq_zero
    intro x hx
    rcases List.mem_map.mp hx with ⟨p, hp, rfl⟩
    unfold multiScore otherLinks scoreFromLinks
    rw [countP_eq_one_of_pairwise Player.club placed hc p hp,
      countP_eq_one_of_pairwise Player.league placed hl p hp,
      countP_eq_one_of_pairwise Player.nation placed hn p hp]
    simp

/-- Witness for C7 at eleven concrete pairwise-distinct players. -/
theorem scenario_chemistry_values_witness :
    (compute_squad_stats (elevenDistinct.map some)).chemistry = 0 :=
  scenario_chemistry_values.2 elevenDistinct (by decide) (by decide) (by decide)
    (by decide)

/-- C8: `compute_squad_stats` is total on sequences of up to eleven optional
records: the variant with the latent division failure made explicit always
returns a value, never an error. -/
theorem compute_total_no_error (docs : List (Option Player))
    (h : docs.length ≤ 11) :
    compute_squad_statsChecked docs = .ok (compute_squad_stats docs) := by
  by_cases hn : docs.filterMap id = []
  · unfold compute_squad_statsChecked
    rw [if_pos (List.isEmpty_iff.mpr hn), compute_eq_of_nil _ hn]
  · unfold compute_squad_statsChecked
    rw [if_neg (fun he => hn (List.isEmpty_iff.mp he))]
    have hlen : ((docs.filterMap id).length : ℚ) ≠ 0 := by
      rw [Nat.cast_ne_zero]
      exact fun h0 => hn (List.length_eq_zero.mp h0)
    unfold qdivChecked
    rw [if_neg hlen, compute_eq_of_ne_nil _ hn]
    rfl

/-- Witness for C8 at a sparse concrete input. -/
theorem compute_total_no_error_witness :
    compute_squad_statsChecked [some scenP1, none, some scenP2]
      = .ok (compute_squad_stats [some scenP1, none, some scenP2]) :=
  compute_total_no_error [some scenP1, none, some scenP2] (by simp)

/-- C9: chemistry is monotone under appending one more placed player. -/
theorem chemistry_monotone_append (S : List Player) (q : Player) :
    (compute_squad_stats (S.map some)).chemistry
      ≤ (compute_squad_stats ((S.map some) ++ [some q])).chemistry := by
  by_cases hS : S = []
  · subst hS
    simp only [List.map_nil, List.nil_append]
    rw [compute_eq_of_nil [] rfl]
    exact Nat.zero_le _
  · have hf1 := filterMap_id_map_some S
    have hfa : ((S.map some) ++ [some q]).filterMap id = S ++ [q] := by
      rw [List.filterMap_append, hf1]
      rfl
    have hne1 : (S.map some).filterMap id ≠ [] := by rw [hf1]; exact hS
    have hne2 : ((S.map some) ++ [some q]).filterMap id ≠ [] := by
      rw [hfa]
      simp
    rw [compute_eq_of_ne_nil _ hne1, compute_eq_of_ne_nil _ hne2]
    dsimp only
    rw [hf1, hfa]
    exact totalChem_append_le S q

/-- C10: the calculator itself enforces no slot bound: past eleven placed
players it still reports the full count and the uncapped sum of capped
per-player scores, which can exceed the reported `max_chemistry` of 33; the
bound is enforced only by the `create_squad` request guard. -/
theorem no_internal_size_cap :
    (∀ docs : List (Option Player), 11 < (docs.filterMap id).length →
        (compute_squad_stats docs).players = (docs.filterMap id).length
        ∧ (compute_squad_stats docs).chemistry
            = ((docs.filterMap id).map (specIndivScore (docs.filterMap id))).sum)
    ∧ (compute_squad_stats (List.replicate 12 (some scenP1))).chemistry = 36
    ∧ (compute_squad_stats (List.replicate 12 (some scenP1))).max_chemistry = some 33
    ∧ ∀ sps : List SquadPlayer, 11 < sps.length →
        create_squad_check sps = .error "Max 11 players in starting XI" := by
  refine ⟨?_, by decide, by decide, ?_⟩
  · intro docs h
    have hne : docs.filterMap id ≠ [] := by
      intro h0
      rw [h0] at h
      simp at h
    rw [compute_eq_of_ne_nil _ hne]
    refine ⟨rfl, ?_⟩
    dsimp only
    rw [totalChem_eq_sum_multiScore]
    exact congrArg List.sum (List.map_congr_left fun p _ =>
      specIndivScore_eq_multiScore (docs.filterMap id) p).symm
  · intro sps h
    unfold create_squad_check
    rw [if_pos]
    exact ⟨fun h0 => by simp [h0] at h, h⟩

/-- Witness for C10 at twelve copies of one player and an oversized lineup. -/
theorem no_internal_size_cap_witness :
    (compute_squad_stats (List.replicate 12 (some scenP1))).players = 12
    ∧ create_squad_check twelveSlots = .error "Max 11 players in starting XI" :=
  ⟨((no_internal_size_cap.1 (List.replicate 12 (some scenP1)) (by decide)).1).trans
      (by decide),
    no_internal_size_cap.2.2.2 twelveSlots (by decide)⟩

end SquadBuilder
